import Mathlib

/-!
Verification of the goasm-vscode server/client core (server.go, fileui.go,
and the HTTP client) via a shallow embedding in Lean 4.

The embedding models:
* the disasm data structures (`Code`, `Inst`, `Source`, `SourceBlock`,
  `LineRange`) exchanged between server and client;
* the open-file registry and the HTTP handlers of `Server`
  (`handleFiles` POST/GET, `handleFileOperations` DELETE,
  `handleFunctions`, and the `CodeResponse` conversion of
  `handleFunctionOperations`);
* the wire serialization shape implied by the struct tags on the
  response types;
* the client-side conversion in `Client.GetFunctionCode` and
  `NetworkFunc.Load`;
* the load-result channels of `FileUI.Run` (`loadFinished` and the
  consumer select loop) and the file-watch polling loop.

A Go `disasm.File` interface value is modelled by `DFile`, a `disasm.Func`
by `DFunc`; the registry `map[string]disasm.File` is modelled as an
association list whose operations mirror Go map semantics (unique keys).
-/

namespace Lensm

/-! ## Data model: internal/disasm structures (as used by server.go and the client) -/

/-- disasm.Options: `{Context int}` — caller-supplied decode configuration. -/
structure Options where
  Context : Int
deriving DecidableEq

/-- disasm.LineRange: `{From, To int}`. -/
structure LineRange where
  From : Int
  To : Int
deriving DecidableEq

/-- disasm.SourceBlock: embeds LineRange (promoted From/To), plus
`Lines []string` and `Related [][]LineRange`. -/
structure SourceBlock extends LineRange where
  Lines : List String
  Related : List (List LineRange)
deriving DecidableEq

/-- disasm.Source: `{File string, Blocks []SourceBlock}`. -/
structure Source where
  File : String
  Blocks : List SourceBlock
deriving DecidableEq

/-- disasm.Inst: one decoded instruction. `PC`/`RefPC` are Go `uint64`
(no arithmetic is performed on them anywhere in the modelled code, so they
are modelled as `Nat`); `Line`, `RefOffset`, `RefStack` are Go `int`. -/
structure Inst where
  PC : Nat
  Text : String
  File : String
  Line : Int
  RefPC : Nat
  RefOffset : Int
  RefStack : Int
  Call : String
deriving DecidableEq

/-- disasm.Code: the decoded function returned by `Func.Load`. -/
structure Code where
  Name : String
  File : String
  Insts : List Inst
  Source : List Source
  MaxJump : Int
deriving DecidableEq

/-- disasm.Func interface: `Name() string` and `Load(Options) *Code`.
`Load` returns a possibly-nil pointer, modelled as `Option Code`. -/
structure DFunc where
  Name : String
  Load : Options → Option Code

/-- disasm.File interface: `Funcs() []Func` and `Close() error`.
`closeResult` is the error returned by `Close` (`none` = nil error). -/
structure DFile where
  Funcs : List DFunc
  closeResult : Option String

/-! ## Open-file registry (Server.activeFiles : map[string]disasm.File) -/

/-- The registry `map[string]disasm.File`, as an association list. -/
abbrev Registry := List (String × DFile)

/-- Go map membership test: `_, exists := s.activeFiles[path]`. -/
def containsKey (reg : Registry) (p : String) : Bool :=
  reg.any (fun kv => kv.1 == p)

/-- Go map read: `file, exists := s.activeFiles[path]`. -/
def lookupKey (reg : Registry) (p : String) : Option DFile :=
  (reg.find? (fun kv => kv.1 == p)).map (fun kv => kv.2)

/-- Go map delete: `delete(s.activeFiles, path)` removes the key entirely. -/
def eraseKey (reg : Registry) (p : String) : Registry :=
  reg.filter (fun kv => kv.1 != p)

/-- Number of entries of the registry stored under key `p`. -/
def countKey (reg : Registry) (p : String) : Nat :=
  (reg.filter (fun kv => kv.1 == p)).length

/-- Invariant of a Go map: each key occurs at most once. -/
def NodupKeys (reg : Registry) : Prop :=
  (reg.map (fun kv => kv.1)).Nodup

/-! ## HTTP handlers of server.go -/

/-- HTTP status outcomes used by the modelled handlers. -/
inductive HStatus where
  | ok
  | created
  | badRequest
  | notFound
  | internalServerError
deriving DecidableEq

/-- Result of `goobj.Load` / `wasmobj.Load`: `(disasm.File, error)`. -/
inductive LoadResult where
  | ok (f : DFile)
  | err (e : String)

/-- `Server.handleFiles`, POST branch (server.go lines 88–135): empty path
is a 400; an already-present path returns 200 without calling the loader;
otherwise the loader runs, a load error gives 500 without storing, and a
success stores the file and returns 201.  Output: the new registry, the
HTTP status, and whether the loader was invoked. -/
def handleFilesPost (reg : Registry) (path : String)
    (loader : String → LoadResult) : Registry × HStatus × Bool :=
  if path = "" then (reg, HStatus.badRequest, false)
  else if containsKey reg path then (reg, HStatus.ok, false)
  else
    match loader path with
    | LoadResult.err _ => (reg, HStatus.internalServerError, true)
    | LoadResult.ok f => (reg ++ [(path, f)], HStatus.created, true)

/-- `Server.handleFiles`, GET branch (server.go lines 137–148): list the
keys of the registry. -/
def handleFilesGet (reg : Registry) : List String :=
  reg.map (fun kv => kv.1)

/-- `Server.handleFileOperations` (DELETE, server.go lines 156–186):
empty path is a 400; a missing path is a 404; otherwise the entry is
deleted and `Close` is invoked on the file.  The third component is the
file Close was invoked on.  Note the source logs but otherwise ignores
the error of `file.Close()` and writes 200 regardless (lines 181–185). -/
def handleFileOperations (reg : Registry) (path : String) :
    Registry × HStatus × Option DFile :=
  if path = "" then (reg, HStatus.badRequest, none)
  else
    match lookupKey reg path with
    | none => (reg, HStatus.notFound, none)
    | some file => (eraseKey reg path, HStatus.ok, some file)

/-- Outcome of `Server.handleFunctions`. -/
inductive FnResult where
  | badRequest
  | notFound
  | invalidFilter
  | ok (functions : List String)
deriving DecidableEq

/-- `Server.handleFunctions` (server.go lines 189–246).  `regexpCompile`
models `regexp.Compile`: `none` for a malformed pattern, otherwise the
match predicate.  A non-empty filter that fails to compile is a 400
(`invalidFilter`); otherwise the function names are collected in
`file.Funcs()` order, filtered by the regex when one is given.  The
handler only reads the registry (RLock in the source), so the registry
component of the result is the input registry. -/
def handleFunctions (reg : Registry) (path filter : String)
    (regexpCompile : String → Option (String → Bool)) : Registry × FnResult :=
  if path = "" then (reg, FnResult.badRequest)
  else
    match lookupKey reg path with
    | none => (reg, FnResult.notFound)
    | some file =>
      let funcs := file.Funcs
      if filter ≠ "" then
        match regexpCompile filter with
        | none => (reg, FnResult.invalidFilter)
        | some rx =>
          (reg, FnResult.ok (funcs.foldl
            (fun acc fn => if rx fn.Name then acc ++ [fn.Name] else acc) []))
      else
        (reg, FnResult.ok (funcs.map (fun fn => fn.Name)))

/-! ## Response types of the API (server.go lines 374–418) -/

/-- FunctionInfo: `{Name string}` with tag `name`. -/
structure FunctionInfo where
  Name : String
deriving DecidableEq

/-- InstructionInfo (tags: pc, text, file, line, refPc, refOffset, refStack, call). -/
structure InstructionInfo where
  PC : Nat
  Text : String
  File : String
  Line : Int
  RefPC : Nat
  RefOffset : Int
  RefStack : Int
  Call : String
deriving DecidableEq

/-- LineRangeInfo (tags: from, to). -/
structure LineRangeInfo where
  From : Int
  To : Int
deriving DecidableEq

/-- SourceBlockInfo (tags: from, to, lines, related). -/
structure SourceBlockInfo where
  From : Int
  To : Int
  Lines : List String
  Related : List (List LineRangeInfo)
deriving DecidableEq

/-- SourceInfo (tags: file, blocks). -/
structure SourceInfo where
  File : String
  Blocks : List SourceBlockInfo
deriving DecidableEq

/-- CodeResponse (tags: name, file, instructions, sources, maxJump). -/
structure CodeResponse where
  Name : String
  File : String
  Instructions : List InstructionInfo
  Sources : List SourceInfo
  MaxJump : Int
deriving DecidableEq

/-! ## Server-side conversion (Server.handleFunctionOperations, lines 313–365) -/

/-- Per-instruction conversion loop of server.go lines 323–334. -/
def instructionInfoOfInst (inst : Inst) : InstructionInfo :=
  { PC := inst.PC
    Text := inst.Text
    File := inst.File
    Line := inst.Line
    RefPC := inst.RefPC
    RefOffset := inst.RefOffset
    RefStack := inst.RefStack
    Call := inst.Call }

/-- Per-block conversion of server.go lines 343–359 (including the nested
`Related` range conversion of lines 351–359). -/
def blockInfoOfBlock (block : SourceBlock) : SourceBlockInfo :=
  { From := block.From
    To := block.To
    Lines := block.Lines
    Related := block.Related.map (fun relatedRanges =>
      relatedRanges.map (fun rng => LineRangeInfo.mk rng.From rng.To)) }

/-- Per-source conversion of server.go lines 337–364. -/
def sourceInfoOfSource (src : Source) : SourceInfo :=
  { File := src.File
    Blocks := src.Blocks.map blockInfoOfBlock }

/-- The full `CodeResponse` built by `handleFunctionOperations`
(server.go lines 314–365). -/
def codeToResponse (code : Code) : CodeResponse :=
  { Name := code.Name
    File := code.File
    Instructions := code.Insts.map instructionInfoOfInst
    Sources := code.Source.map sourceInfoOfSource
    MaxJump := code.MaxJump }

/-! ## Client-side conversion (Client.GetFunctionCode, part_002 lines 130–187) -/

/-- Per-instruction conversion loop of the client (part_002 lines 140–151). -/
def instOfInfo (inst : InstructionInfo) : Inst :=
  { PC := inst.PC
    Text := inst.Text
    File := inst.File
    Line := inst.Line
    RefPC := inst.RefPC
    RefOffset := inst.RefOffset
    RefStack := inst.RefStack
    Call := inst.Call }

/-- Per-block conversion of the client (part_002 lines 160–178): rebuilds
the embedded `LineRange` and the nested `Related` ranges. -/
def blockOfInfo (block : SourceBlockInfo) : SourceBlock :=
  { toLineRange := LineRange.mk block.From block.To
    Lines := block.Lines
    Related := block.Related.map (fun relatedRanges =>
      relatedRanges.map (fun rng => LineRange.mk rng.From rng.To)) }

/-- Per-source conversion of the client (part_002 lines 154–184). -/
def sourceOfInfo (src : SourceInfo) : Source :=
  { File := src.File
    Blocks := src.Blocks.map blockOfInfo }

/-- The `disasm.Code` rebuilt by `Client.GetFunctionCode`
(part_002 lines 131–186). -/
def responseToCode (result : CodeResponse) : Code :=
  { Name := result.Name
    File := result.File
    Insts := result.Instructions.map instOfInfo
    Source := result.Sources.map sourceOfInfo
    MaxJump := result.MaxJump }

/-- `NetworkFunc.Load` (part_002 lines 274–282): a failed
`GetFunctionCode` is printed and `nil` is returned; a success returns the
decoded code. -/
def NetworkFuncLoad (getFunctionCode : Except String Code) : Option Code :=
  match getFunctionCode with
  | Except.error _ => none
  | Except.ok code => some code

/-! ## Wire serialization shape (struct tags of server.go lines 374–418)

Go's `encoding/json` serializes each response struct as an object whose
keys are exactly the struct tags, in field order.  `Json` is a minimal
JSON value type and the encoders below carry the tag names verbatim from
the source. -/

inductive Json where
  | str (s : String)
  | num (n : Int)
  | arr (elems : List Json)
  | obj (fields : List (String × Json))

/-- Keys of a JSON object (empty for non-objects). -/
def Json.keys : Json → List String
  | Json.obj fields => fields.map (fun kv => kv.1)
  | _ => []

/-- Serialization of `LineRangeInfo` with its struct tags. -/
def LineRangeInfo.toJson (r : LineRangeInfo) : Json :=
  Json.obj [("from", Json.num r.From), ("to", Json.num r.To)]

/-- Serialization of `SourceBlockInfo` with its struct tags. -/
def SourceBlockInfo.toJson (b : SourceBlockInfo) : Json :=
  Json.obj
    [("from", Json.num b.From),
     ("to", Json.num b.To),
     ("lines", Json.arr (b.Lines.map Json.str)),
     ("related", Json.arr (b.Related.map (fun rs =>
        Json.arr (rs.map LineRangeInfo.toJson))))]

/-- Serialization of `SourceInfo` with its struct tags. -/
def SourceInfo.toJson (s : SourceInfo) : Json :=
  Json.obj
    [("file", Json.str s.File),
     ("blocks", Json.arr (s.Blocks.map SourceBlockInfo.toJson))]

/-- Serialization of `InstructionInfo` with its struct tags. -/
def InstructionInfo.toJson (i : InstructionInfo) : Json :=
  Json.obj
    [("pc", Json.num (Int.ofNat i.PC)),
     ("text", Json.str i.Text),
     ("file", Json.str i.File),
     ("line", Json.num i.Line),
     ("refPc", Json.num (Int.ofNat i.RefPC)),
     ("refOffset", Json.num i.RefOffset),
     ("refStack", Json.num i.RefStack),
     ("call", Json.str i.Call)]

/-- Serialization of `CodeResponse` with its struct tags. -/
def CodeResponse.toJson (r : CodeResponse) : Json :=
  Json.obj
    [("name", Json.str r.Name),
     ("file", Json.str r.File),
     ("instructions", Json.arr (r.Instructions.map InstructionInfo.toJson)),
     ("sources", Json.arr (r.Sources.map SourceInfo.toJson)),
     ("maxJump", Json.num r.MaxJump)]

/-! ## Loader selection (server.go lines 119–123 and isWasmFile, lines 421–423) -/

/-- Which loader package `handleFiles` dispatches to. -/
inductive LoaderKind where
  | goobj
  | wasmobj
deriving DecidableEq

/-- `isWasmFile` (server.go lines 421–423): the regexp
match of the anchored pattern against the path holds exactly when the
path ends in `.wasm`, modelled as a suffix test on the character list. -/
def isWasmFile (path : String) : Bool :=
  List.isSuffixOf ".wasm".data path.data

/-- The loader dispatch of `handleFiles` (server.go lines 119–123):
`wasmobj.Load` runs only when the WASM experiment flag is set and the
path matches `isWasmFile`; otherwise `goobj.Load` runs.  Only the flag
and the request path are consulted — the file contents are not an input
of the decision. -/
def chooseLoader (workInProgressWASM : Bool) (path : String) : LoaderKind :=
  if workInProgressWASM && isWasmFile path then LoaderKind.wasmobj
  else LoaderKind.goobj

/-! ## Load-result delivery channels (fileui.go lines 59–162)

`FileUI.Run` creates two buffered channels of capacity one,
`fileLoaded chan disasm.File` and `fileLoadError chan error`.
`loadFinished` drains the matching channel and sends the new value, so
each channel holds at most the most recent value of its kind.  The
consumer is the `select` loop at lines 141–162.  Loaded files and errors
are modelled by `Nat` identifiers ordered by production time. -/

/-- A load result handed to `loadFinished`: either a successfully loaded
file or a load/stat error. -/
inductive Res where
  | ok (v : Nat)
  | err (e : Nat)
deriving DecidableEq

/-- The two single-slot channels of `FileUI.Run` (fileui.go lines 65–66). -/
structure ChanState where
  fileLoaded : Option Nat
  fileLoadError : Option Nat
deriving DecidableEq

/-- `loadFinished` (fileui.go lines 68–82): a success drains any pending
value of `fileLoaded` and sends the new file; an error does the same on
`fileLoadError`.  Net effect on each capacity-one channel: replace. -/
def loadFinished (st : ChanState) (r : Res) : ChanState :=
  match r with
  | Res.ok v => { st with fileLoaded := some v }
  | Res.err e => { st with fileLoadError := some e }

/-- Events of a producer/consumer trace: the background goroutine calls
`loadFinished`, and the consumer select loop (fileui.go lines 141–148)
receives from one of the two channels when it has a value. -/
inductive Ev where
  | produce (r : Res)
  | consumeLoaded
  | consumeError
deriving DecidableEq

/-- Runs a trace of events, collecting each value the consumer observes,
paired with the list of results produced before that observation (in
production order). -/
def obsAux (st : ChanState) (prods : List Res) : List Ev → List (Res × List Res)
  | [] => []
  | Ev.produce r :: es => obsAux (loadFinished st r) (prods ++ [r]) es
  | Ev.consumeLoaded :: es =>
    match st.fileLoaded with
    | some v => (Res.ok v, prods) :: obsAux { st with fileLoaded := none } prods es
    | none => obsAux st prods es
  | Ev.consumeError :: es =>
    match st.fileLoadError with
    | some e => (Res.err e, prods) :: obsAux { st with fileLoadError := none } prods es
    | none => obsAux st prods es

/-- Observations of a trace started from empty channels. -/
def observations (tr : List Ev) : List (Res × List Res) :=
  obsAux (ChanState.mk none none) [] tr

/-- The property claimed of the delivery mechanism: every observed result
is the most recently produced result at observation time (the consumer
never observes an older result after a newer one has been produced). -/
def LatestWins (tr : List Ev) : Prop :=
  ∀ p ∈ observations tr, p.2.getLast? = some p.1

/-- The most recently produced successful load in a production list. -/
def lastOk (prods : List Res) : Option Nat :=
  (prods.filterMap (fun r => match r with | Res.ok v => some v | _ => none)).getLast?

/-- The most recently produced error in a production list. -/
def lastErr (prods : List Res) : Option Nat :=
  (prods.filterMap (fun r => match r with | Res.err e => some e | _ => none)).getLast?

/-! ## File-watch polling loop (fileui.go lines 92–124)

One loop iteration stats the path; a stat error is reported through
`loadFinished(nil, err)`; an unchanged modification time does nothing; a
changed one records the new time and reports the result of a fresh
`Load`.  The loop then exits if not watching, else waits for the next
tick.  A `Poll` is the outcome the file system presents to one
iteration. -/

inductive Poll where
  | statErr (e : Nat)
  | statOk (modTime : Nat) (loadResult : Res)

/-- One iteration of the watch loop body (fileui.go lines 97–113):
returns the updated `lastModTime` and the result passed to
`loadFinished`, if any. -/
def watchStep (lastModTime : Option Nat) (p : Poll) : Option Nat × Option Res :=
  match p with
  | Poll.statErr e => (lastModTime, some (Res.err e))
  | Poll.statOk mt r =>
    if some mt = lastModTime then (lastModTime, none)
    else (some mt, some r)

/-- The watch loop (fileui.go lines 96–124) over a list of poll outcomes
(one per tick): emits the sequence of results reported to `loadFinished`.
With `watch = false` the loop breaks after the first iteration
(line 115–117); with `watch = true` it continues to the next tick. -/
def watchRun (watch : Bool) (lastModTime : Option Nat) : List Poll → List Res
  | [] => []
  | p :: ps =>
    let s := watchStep lastModTime p
    s.2.toList ++ (if watch then watchRun watch s.1 ps else [])

/-! ## Helper lemmas about the registry -/

theorem lookupKey_eraseKey (reg : Registry) (p : String) :
    lookupKey (eraseKey reg p) p = none := by
  unfold lookupKey eraseKey
  have h : List.find? (fun kv => kv.1 == p) (List.filter (fun kv => kv.1 != p) reg)
      = none := by
    apply List.find?_eq_none.mpr
    intro x hx
    have hne := (List.mem_filter.mp hx).2
    simp only [bne_iff_ne, ne_eq] at hne
    simp [hne]
  rw [h]
  rfl

theorem containsKey_iff_mem (reg : Registry) (p : String) :
    containsKey reg p = true ↔ p ∈ reg.map (fun kv => kv.1) := by
  simp only [containsKey, List.any_eq_true, List.mem_map, beq_iff_eq]

theorem count_eq_one_of_nodup {l : List String} {a : String}
    (hnd : l.Nodup) (hmem : a ∈ l) : l.count a = 1 := by
  rcases List.mem_iff_append.mp hmem with ⟨s, t, rfl⟩
  have hnotin : a ∉ s ∧ a ∉ t := by
    have := hnd
    rw [List.nodup_append] at this
    rcases this with ⟨hs, hat, hdisj⟩
    constructor
    · intro hin
      exact (hdisj hin) (List.mem_cons_self a t)
    · intro hin
      exact ((List.nodup_cons.mp hat).1 hin).elim
  rw [List.count_append, List.count_cons_self,
      List.count_eq_zero_of_not_mem hnotin.1,
      List.count_eq_zero_of_not_mem hnotin.2]

/-! ## Claim theorems -/

/-- C1: for a path already present in the registry, a second load request
succeeds (HTTP 200) without invoking the loader, leaves the registry
unchanged, and afterwards the registry holds exactly one entry for that
path (as observed by the file-listing handler). -/
theorem add_idempotent (reg : Registry) (p : String) (loader : String → LoadResult)
    (hp : p ≠ "") (hmem : containsKey reg p = true) (hnd : NodupKeys reg) :
    handleFilesPost reg p loader = (reg, HStatus.ok, false) ∧
      (handleFilesGet reg).count p = 1 := by
  constructor
  · unfold handleFilesPost
    rw [if_neg hp, if_pos hmem]
  · exact count_eq_one_of_nodup hnd ((containsKey_iff_mem reg p).mp hmem)

/-- A registry entry whose file has no functions and closes cleanly. -/
def fileA : DFile := { Funcs := [], closeResult := none }

theorem add_idempotent_witness :
    handleFilesPost [("a", fileA)] "a" (fun _ => LoadResult.err "")
        = ([("a", fileA)], HStatus.ok, false) ∧
      (handleFilesGet [("a", fileA)]).count "a" = 1 :=
  add_idempotent [("a", fileA)] "a" (fun _ => LoadResult.err "")
    (by decide) rfl (by simp [NodupKeys])

/-- C2: removing a registered path deletes its entry, invokes `Close` on
the stored file (the third component of the handler result is the file
Close is invoked on), answers HTTP 200, and a subsequent function query
for that path answers `NotFound`. -/
theorem remove_closes_and_notfound (reg : Registry) (p : String) (f : DFile)
    (filter : String) (regexpCompile : String → Option (String → Bool))
    (hp : p ≠ "") (hf : lookupKey reg p = some f) :
    handleFileOperations reg p = (eraseKey reg p, HStatus.ok, some f) ∧
      (handleFunctions (eraseKey reg p) p filter regexpCompile).2
        = FnResult.notFound := by
  constructor
  · unfold handleFileOperations
    rw [if_neg hp, hf]
  · unfold handleFunctions
    rw [if_neg hp, lookupKey_eraseKey]

theorem remove_closes_and_notfound_witness :
    handleFileOperations [("a", fileA)] "a"
        = (eraseKey [("a", fileA)] "a", HStatus.ok, some fileA) ∧
      (handleFunctions (eraseKey [("a", fileA)] "a") "a" ""
          (fun _ => none)).2 = FnResult.notFound :=
  remove_closes_and_notfound [("a", fileA)] "a" fileA "" (fun _ => none)
    (by decide) rfl

/-- C3: a non-empty name-filter pattern that fails to compile makes the
function-listing handler answer `InvalidFilter` with the registry
untouched, so a subsequent query (with any other filter) over the
resulting registry answers exactly as it would have before the failed
query. -/
theorem invalid_filter_no_mutation (reg : Registry) (p bad good : String) (f : DFile)
    (regexpCompile : String → Option (String → Bool))
    (hp : p ≠ "") (hf : lookupKey reg p = some f)
    (hbadne : bad ≠ "") (hbad : regexpCompile bad = none) :
    handleFunctions reg p bad regexpCompile = (reg, FnResult.invalidFilter) ∧
      handleFunctions (handleFunctions reg p bad regexpCompile).1 p good regexpCompile
        = handleFunctions reg p good regexpCompile := by
  have h1 : handleFunctions reg p bad regexpCompile = (reg, FnResult.invalidFilter) := by
    unfold handleFunctions
    rw [if_neg hp, hf]
    simp [hbadne, hbad]
  exact ⟨h1, by rw [h1]⟩

/-- A file with two functions, used as a concrete witness registry entry. -/
def fileFooBar : DFile :=
  { Funcs := [{ Name := "foo", Load := fun _ => none },
              { Name := "bar", Load := fun _ => none }]
    closeResult := none }

theorem invalid_filter_no_mutation_witness :
    handleFunctions [("a", fileFooBar)] "a" "(" (fun _ => none)
        = ([("a", fileFooBar)], FnResult.invalidFilter) ∧
      handleFunctions (handleFunctions [("a", fileFooBar)] "a" "(" (fun _ => none)).1
          "a" "" (fun _ => none)
        = handleFunctions [("a", fileFooBar)] "a" "" (fun _ => none) :=
  invalid_filter_no_mutation [("a", fileFooBar)] "a" "(" "" fileFooBar
    (fun _ => none) (by decide) rfl (by decide) rfl

/-- Accumulator form of the name-collection loop of `handleFunctions`. -/
theorem foldl_filter_names (rx : String → Bool) (funcs : List DFunc) (acc : List String) :
    funcs.foldl (fun acc fn => if rx fn.Name then acc ++ [fn.Name] else acc) acc
      = acc ++ (funcs.map (fun fn => fn.Name)).filter rx := by
  induction funcs generalizing acc with
  | nil => simp
  | cons fn t ih =>
    by_cases h : rx fn.Name
    · simp [List.foldl_cons, h, ih, List.filter_cons]
    · simp [List.foldl_cons, h, ih, List.filter_cons]

/-- C10: for a loaded file, a non-empty filter that compiles makes the
function-listing handler return exactly the names whose pattern matches,
as the filter of the name list (hence an order-preserving subsequence of
the `Funcs()` name list), and an empty filter returns all names in
`Funcs()` order. -/
theorem functions_filter (reg : Registry) (p pat : String) (f : DFile)
    (rx : String → Bool) (regexpCompile : String → Option (String → Bool))
    (hp : p ≠ "") (hf : lookupKey reg p = some f) :
    (pat ≠ "" → regexpCompile pat = some rx →
      handleFunctions reg p pat regexpCompile
        = (reg, FnResult.ok ((f.Funcs.map (fun fn => fn.Name)).filter rx))) ∧
    ((f.Funcs.map (fun fn => fn.Name)).filter rx).Sublist
        (f.Funcs.map (fun fn => fn.Name)) ∧
    handleFunctions reg p "" regexpCompile
      = (reg, FnResult.ok (f.Funcs.map (fun fn => fn.Name))) := by
  refine ⟨?_, List.filter_sublist _, ?_⟩
  · intro hpat hrx
    unfold handleFunctions
    rw [if_neg hp, hf]
    simp only [hpat, hrx, if_pos, ne_eq, not_false_iff, if_true]
    rw [foldl_filter_names rx f.Funcs []]
    simp
  · unfold handleFunctions
    rw [if_neg hp, hf]
    simp

theorem functions_filter_witness :
    ("fo" ≠ "") ∧
      handleFunctions [("a", fileFooBar)] "a" "fo"
          (fun pat => if pat = "fo" then some (fun s => s == "foo") else none)
        = ([("a", fileFooBar)],
           FnResult.ok ((fileFooBar.Funcs.map (fun fn => fn.Name)).filter
             (fun s => s == "foo"))) :=
  ⟨by decide,
    (functions_filter [("a", fileFooBar)] "a" "fo" fileFooBar
      (fun s => s == "foo")
      (fun pat => if pat = "fo" then some (fun s => s == "foo") else none)
      (by decide) rfl).1 (by decide) (by simp)⟩

/-- C7: the serialized form of every response value uses exactly the fixed
field names of the wire contract, at every nesting level. -/
theorem wire_field_names (r : CodeResponse) (i : InstructionInfo) (s : SourceInfo)
    (b : SourceBlockInfo) (lr : LineRangeInfo) :
    (CodeResponse.toJson r).keys
        = ["name", "file", "instructions", "sources", "maxJump"] ∧
      (InstructionInfo.toJson i).keys
        = ["pc", "text", "file", "line", "refPc", "refOffset", "refStack", "call"] ∧
      (SourceInfo.toJson s).keys = ["file", "blocks"] ∧
      (SourceBlockInfo.toJson b).keys = ["from", "to", "lines", "related"] ∧
      (LineRangeInfo.toJson lr).keys = ["from", "to"] :=
  ⟨rfl, rfl, rfl, rfl, rfl⟩

/-- C8 counterexample: the loader choice is made from the request path
alone (the path suffix `.wasm`), not from the file's header magic bytes:
two paths that may name byte-identical file contents are dispatched to
different loaders, and the file contents are not even an input of
`chooseLoader`. -/
theorem load_detection_counterexample :
    chooseLoader true "prog.wasm" = LoaderKind.wasmobj ∧
      chooseLoader true "prog.bin" = LoaderKind.goobj := by
  constructor <;> decide

/-- C8 amended: `handleFiles` dispatches to the WebAssembly loader
exactly when the experiment flag is set and the path ends in `.wasm`;
otherwise it dispatches to the native loader.  Both branches produce the
same normalized file shape (`disasm.File`, modelled by `DFile`, stored in
the same registry by `handleFilesPost`). -/
theorem chooseLoader_by_suffix (workInProgressWASM : Bool) (path : String) :
    chooseLoader workInProgressWASM path = LoaderKind.wasmobj ↔
      workInProgressWASM = true ∧ isWasmFile path = true := by
  cases workInProgressWASM <;> cases hiw : isWasmFile path <;>
    simp [chooseLoader, hiw]

/-- A registry entry whose `Close` reports an error. -/
def crashingCloseFile : DFile := { Funcs := [], closeResult := some "close failed" }

/-- C9 (code bug evidence): removing a path whose file fails to close
still answers HTTP 200 — the close error is only logged (server.go
lines 181–185), so the caller sees plain success; and a failed remote
load in `NetworkFunc.Load` is collapsed to `nil` with the error printed
rather than propagated. -/
theorem close_error_reported_as_success :
    handleFileOperations [("/bin/app", crashingCloseFile)] "/bin/app"
        = ([], HStatus.ok, some crashingCloseFile) ∧
      crashingCloseFile.closeResult = some "close failed" ∧
      NetworkFuncLoad (Except.error "server error") = none :=
  ⟨rfl, rfl, rfl⟩

/-! ### C6: the remote variant forwards load without altering the data -/

theorem map_map_id {α β : Type} (f : α → β) (g : β → α)
    (h : ∀ a, g (f a) = a) (l : List α) : (l.map f).map g = l := by
  induction l with
  | nil => rfl
  | cons a t ih => simp [h, ih]

theorem blockOfInfo_roundtrip (b : SourceBlock) :
    blockOfInfo (blockInfoOfBlock b) = b := by
  cases b with
  | mk lr lines rel =>
    cases lr
    unfold blockOfInfo blockInfoOfBlock
    simp only [SourceBlock.mk.injEq]
    refine ⟨trivial, trivial, ?_⟩
    exact map_map_id _ _
      (fun rs => map_map_id _ _ (fun rng => rfl) rs) rel

theorem sourceOfInfo_roundtrip (s : Source) :
    sourceOfInfo (sourceInfoOfSource s) = s := by
  cases s with
  | mk file blocks =>
    unfold sourceOfInfo sourceInfoOfSource
    simp only [Source.mk.injEq]
    exact ⟨trivial, map_map_id _ _ blockOfInfo_roundtrip blocks⟩

/-- C6: converting a `disasm.Code` to the wire response on the server and
converting the response back to a `disasm.Code` in the remote client is
the identity, field for field at every level (name, file, maxJump, every
instruction field, and every source block with its lines and related
ranges). -/
theorem remote_roundtrip (code : Code) :
    responseToCode (codeToResponse code) = code := by
  cases code with
  | mk name file insts source maxJump =>
    unfold responseToCode codeToResponse
    simp only [Code.mk.injEq]
    refine ⟨trivial, trivial, ?_, ?_, trivial⟩
    · exact map_map_id _ _ (fun i => rfl) insts
    · exact map_map_id _ _ sourceOfInfo_roundtrip source

/-! ### C4: the load-result delivery channels -/

/-- C4 counterexample: with the two capacity-one channels of
`FileUI.Run`, a pending successful load is not discarded when a newer
error is produced, so the consumer can observe the older result after
the newer one was produced: produce a load success, then a load error,
then let the consumer receive from `fileLoaded`. -/
theorem latest_wins_counterexample :
    ¬ LatestWins [Ev.produce (Res.ok 1), Ev.produce (Res.err 2), Ev.consumeLoaded] := by
  unfold LatestWins
  decide

theorem lastOk_append_ok (prods : List Res) (v : Nat) :
    lastOk (prods ++ [Res.ok v]) = some v := by
  simp [lastOk, List.filterMap_append]

theorem lastOk_append_err (prods : List Res) (e : Nat) :
    lastOk (prods ++ [Res.err e]) = lastOk prods := by
  simp [lastOk, List.filterMap_append]

theorem lastErr_append_ok (prods : List Res) (v : Nat) :
    lastErr (prods ++ [Res.ok v]) = lastErr prods := by
  simp [lastErr, List.filterMap_append]

theorem lastErr_append_err (prods : List Res) (e : Nat) :
    lastErr (prods ++ [Res.err e]) = some e := by
  simp [lastErr, List.filterMap_append]

/-- Induction core for the per-kind latest-wins property: if each channel
slot holds (at most) the most recently produced value of its kind, every
observation of the remaining trace is the most recent production of its
kind at observation time. -/
theorem obsAux_per_kind (es : List Ev) :
    ∀ (st : ChanState) (prods : List Res),
      (∀ v, st.fileLoaded = some v → lastOk prods = some v) →
      (∀ e, st.fileLoadError = some e → lastErr prods = some e) →
      ∀ p ∈ obsAux st prods es,
        (∀ v, p.1 = Res.ok v → lastOk p.2 = some v) ∧
        (∀ e, p.1 = Res.err e → lastErr p.2 = some e) := by
  induction es with
  | nil =>
    intro st prods _ _ p hp
    simp [obsAux] at hp
  | cons ev es ih =>
    intro st prods hok herr p hp
    cases ev with
    | produce r =>
      simp only [obsAux] at hp
      cases r with
      | ok v =>
        refine ih _ _ ?_ ?_ p hp
        · intro v2 h2
          simp only [loadFinished] at h2
          cases h2
          exact lastOk_append_ok prods v
        · intro e2 h2
          simp only [loadFinished] at h2
          rw [lastErr_append_ok]
          exact herr e2 h2
      | err e =>
        refine ih _ _ ?_ ?_ p hp
        · intro v2 h2
          simp only [loadFinished] at h2
          rw [lastOk_append_err]
          exact hok v2 h2
        · intro e2 h2
          simp only [loadFinished] at h2
          cases h2
          exact lastErr_append_err prods e
    | consumeLoaded =>
      rw [obsAux] at hp
      cases hL : st.fileLoaded with
      | some v =>
        rw [hL] at hp
        simp only [List.mem_cons] at hp
        rcases hp with rfl | hp
        · constructor
          · intro v2 h2
            injection h2 with h3
            subst h3
            exact hok _ hL
          · intro e2 h2
            cases h2
        · refine ih _ _ ?_ ?_ p hp
          · intro v2 h2
            cases h2
          · intro e2 h2
            exact herr e2 h2
      | none =>
        rw [hL] at hp
        exact ih st prods hok herr p hp
    | consumeError =>
      rw [obsAux] at hp
      cases hE : st.fileLoadError with
      | some e =>
        rw [hE] at hp
        simp only [List.mem_cons] at hp
        rcases hp with rfl | hp
        · constructor
          · intro v2 h2
            cases h2
          · intro e2 h2
            injection h2 with h3
            subst h3
            exact herr _ hE
        · refine ih _ _ ?_ ?_ p hp
          · intro v2 h2
            exact hok v2 h2
          · intro e2 h2
            cases h2
      | none =>
        rw [hE] at hp
        exact ih st prods hok herr p hp

/-- C4 amended: each kind of result travels in its own capacity-one
channel with replace-on-produce semantics, so in every producer/consumer
trace, every successful load the consumer observes is the most recently
produced successful load at observation time, and every error it
observes is the most recently produced error — but a pending result of
one kind is not discarded when a result of the other kind is produced
(see the counterexample). -/
theorem per_kind_latest_wins (tr : List Ev) :
    ∀ p ∈ observations tr,
      (∀ v, p.1 = Res.ok v → lastOk p.2 = some v) ∧
      (∀ e, p.1 = Res.err e → lastErr p.2 = some e) := by
  refine obsAux_per_kind tr (ChanState.mk none none) [] ?_ ?_
  · intro v h
    cases h
  · intro e h
    cases h

theorem per_kind_latest_wins_witness :
    (Res.ok 1, [Res.ok 1]) ∈ observations [Ev.produce (Res.ok 1), Ev.consumeLoaded] ∧
      lastOk [Res.ok 1] = some 1 :=
  ⟨by decide,
    (per_kind_latest_wins [Ev.produce (Res.ok 1), Ev.consumeLoaded]
      (Res.ok 1, [Res.ok 1]) (by decide)).1 1 rfl⟩

/-! ### C5: watch-loop failures are reported and do not end the loop -/

/-- C5: while watching, a failed poll iteration — a stat failure, or a
changed modification time whose reload fails — reports the failure to
the consumer (the emitted result list starts with that error) and the
loop goes on to process the remaining polls exactly as it would
otherwise; no failure terminates the watch task. -/
theorem watch_failure_reported_and_continues (ps : List Poll)
    (lastModTime : Option Nat) (e : Nat) (mt : Nat) :
    watchRun true lastModTime (Poll.statErr e :: ps)
        = Res.err e :: watchRun true lastModTime ps ∧
      (some mt ≠ lastModTime →
        watchRun true lastModTime (Poll.statOk mt (Res.err e) :: ps)
          = Res.err e :: watchRun true (some mt) ps) := by
  constructor
  · simp [watchRun, watchStep]
  · intro h
    simp [watchRun, watchStep, h]

theorem watch_failure_witness :
    (some 3 ≠ (none : Option Nat)) ∧
      watchRun true (none : Option Nat) [Poll.statOk 3 (Res.err 7)]
        = Res.err 7 :: watchRun true (some 3) [] :=
  ⟨by decide,
    (watch_failure_reported_and_continues [] none 7 3).2 (by decide)⟩

end Lensm
